import Mathlib

/-!
Verification of the teleport-plugins access-request reconciliation core.

The first part embeds the example whitelist plugin's event loop
(the `run` function of the example plugin): it watches pending access
requests and approves or denies each one according to a configured user
whitelist, via `client.SetRequestState`.

The second part models, from the specification, the components of the
repository whose sources are not available here (the reconciler core with
its PluginData store, the Slack webhook verifier, the Event Watcher
reconnect loop), and embeds the JIRA webhook server
(`access/jira/webhook_server.go`), which is available.
-/

namespace TeleportPlugins

/-- Access-request lifecycle state (`access.State`). -/
inductive State where
  | pending
  | approved
  | denied
  | expired
  deriving DecidableEq, Repr

/-- Watcher event operation kind (`access.OpInit`, `access.OpPut`, `access.OpDelete`). -/
inductive Op where
  | init
  | put
  | delete
  deriving DecidableEq, Repr

/-- An access request as observed by the plugins (`access.Request`):
identified by `id`, carrying the requesting user and the lifecycle state. -/
structure Request where
  id : String
  user : String
  state : State
  deriving DecidableEq, Repr

/-- A watcher-delivered event (`access.Event`): an operation kind plus a
request snapshot (empty for `init`, only the id meaningful for `delete`). -/
structure Event where
  type : Op
  request : Request
  deriving DecidableEq, Repr

/-- The example plugin's configuration: the user whitelist. -/
structure Config where
  whitelist : List String
  deriving Repr

/-- The example plugin's `CheckWhitelist` loop: scan the whitelist for the
requesting user, stopping at the first match. -/
def checkWhitelist (whitelist : List String) (user : String) : Bool :=
  match whitelist with
  | [] => false
  | u :: rest => if user == u then true else checkWhitelist rest user

/-- The state the example plugin chooses for a Put event: `approved` when
the requesting user is whitelisted, `denied` otherwise. -/
def putState (conf : Config) (req : Request) : State :=
  if checkWhitelist conf.whitelist req.user then State.approved else State.denied

/-- One invocation of `client.SetRequestState(ctx, reqId, state)`. -/
structure Call where
  reqId : String
  state : State
  deriving DecidableEq, Repr

/-- How the example plugin's `run` loop ends: either `SetRequestState`
returned an error (which `run` wraps and returns, terminating the loop),
or the watcher is done and the event list is exhausted. -/
inductive RunOutcome where
  | setStateErr (reqId : String) (state : State)
  | watcherDone
  deriving DecidableEq, Repr

/-- The event loop of the example plugin's `run` function.  `setOk` is the
oracle for whether `client.SetRequestState` succeeds on a given call.
Returns the list of `SetRequestState` invocations made (failed calls
included) together with how the loop ended.  On `init` and `delete` the
loop only logs and continues; on `put` it decides via the whitelist and
calls `SetRequestState`, returning the error (stopping the loop) when the
call fails. -/
def runLoop (conf : Config) (setOk : String → State → Bool) :
    List Event → List Call × RunOutcome
  | [] => ([], RunOutcome.watcherDone)
  | ev :: rest =>
    match ev.type with
    | Op.init => runLoop conf setOk rest
    | Op.put =>
      let req := ev.request
      let st := putState conf req
      if setOk req.id st then
        let res := runLoop conf setOk rest
        (⟨req.id, st⟩ :: res.1, res.2)
      else
        ([⟨req.id, st⟩], RunOutcome.setStateErr req.id st)
    | Op.delete => runLoop conf setOk rest

/-- A Put event carrying a pending request, as delivered by the
pending-state-filtered watcher. -/
def putEvent (id user : String) : Event :=
  ⟨Op.put, ⟨id, user, State.pending⟩⟩

/-- A Delete event: only the request id is meaningful. -/
def deleteEvent (id : String) : Event :=
  ⟨Op.delete, ⟨id, "", State.pending⟩⟩

theorem checkWhitelist_iff (ws : List String) (u : String) :
    checkWhitelist ws u = true ↔ u ∈ ws := by
  induction ws with
  | nil => simp [checkWhitelist]
  | cons a rest ih =>
    simp only [checkWhitelist]
    by_cases h : u = a
    · subst h; simp
    · have hb : (u == a) = false := beq_eq_false_iff_ne.mpr h
      simp [hb, ih, h]

theorem runLoop_put_cons (conf : Config) (setOk : String → State → Bool)
    (req : Request) (rest : List Event) :
    (runLoop conf setOk (Event.mk Op.put req :: rest)).1.head?
      = some ⟨req.id, putState conf req⟩ := by
  simp only [runLoop]
  by_cases h : setOk req.id (putState conf req) = true
  · simp [h]
  · simp [h]

/-- Modelled from the spec: the per-request PluginData record (section 3) —
the reconciler core that owns it (the Slack and JIRA app cores) is not in
the available sources.  It holds the notification handle and the
"already resolved" flag; the version token is tracked by the store. -/
structure PluginData where
  handle : String
  resolved : Bool
  deriving DecidableEq, Repr

/-- Modelled from the spec: the Plugin Data Store (section 4.2), a keyed
store of (request id, version token, record). -/
def Store := List (String × Nat × PluginData)

/-- Modelled from the spec: `Get(requestID)` of the Plugin Data Store. -/
def storeGet (s : Store) (id : String) : Option (Nat × PluginData) :=
  match s with
  | [] => none
  | (k, v, d) :: rest => if k == id then some (v, d) else storeGet rest id

/-- Modelled from the spec: writing a record into the Plugin Data Store
(the sequential image of `Create` and `CompareAndSwap`). -/
def storeSet (s : Store) (id : String) (v : Nat) (d : PluginData) : Store :=
  match s with
  | [] => [(id, v, d)]
  | (k, v0, d0) :: rest =>
    if k == id then (id, v, d) :: rest else (k, v0, d0) :: storeSet rest id v d

/-- An external side effect on the Notification Channel: post a new
notification for a request, or update an existing one to a final state. -/
inductive Effect where
  | post (reqId : String)
  | update (reqId : String) (finalState : State)
  deriving DecidableEq, Repr

/-- Modelled from the spec: the Reconciler's event-driven transition rules
(section 4.3), consumed from the single ordered watcher channel.
`postHandle` gives the notification handle returned by the channel's Post.
Put of a pending request with no PluginData posts a notification and
creates the record; Put of a pending request with PluginData present is a
no-op; Put of an approved or denied request updates the notification and
resolves the record; Delete updates the notification to expired and
resolves when an unresolved record exists, and otherwise is a no-op. -/
def handleEvent (postHandle : String → String) (s : Store) (ev : Event) :
    Store × List Effect :=
  match ev.type with
  | Op.init => (s, [])
  | Op.put =>
    let req := ev.request
    match req.state, storeGet s req.id with
    | State.pending, none =>
      (storeSet s req.id 1 ⟨postHandle req.id, false⟩, [Effect.post req.id])
    | State.pending, some _ => (s, [])
    | State.approved, some (v, d) =>
      if d.resolved then (s, [])
      else (storeSet s req.id (v + 1) ⟨d.handle, true⟩,
        [Effect.update req.id State.approved])
    | State.denied, some (v, d) =>
      if d.resolved then (s, [])
      else (storeSet s req.id (v + 1) ⟨d.handle, true⟩,
        [Effect.update req.id State.denied])
    | _, _ => (s, [])
  | Op.delete =>
    match storeGet s ev.request.id with
    | some (v, d) =>
      if d.resolved then (s, [])
      else (storeSet s ev.request.id (v + 1) ⟨d.handle, true⟩,
        [Effect.update ev.request.id State.expired])
    | none => (s, [])

/-- Modelled from the spec: the Reconciler processing the watcher's event
sequence in order, threading the Plugin Data Store and accumulating the
Notification Channel side effects. -/
def processEvents (postHandle : String → String) (s : Store) :
    List Event → Store × List Effect
  | [] => (s, [])
  | ev :: rest =>
    let r1 := handleEvent postHandle s ev
    let r2 := processEvents postHandle r1.1 rest
    (r2.1, r1.2 ++ r2.2)

/-- Whether an effect is a Post for the given request id. -/
def isPost (id : String) : Effect → Bool
  | Effect.post j => j == id
  | _ => false

/-- Number of Post invocations for a request id in an effect list. -/
def postCount (effects : List Effect) (id : String) : Nat :=
  (effects.filter (isPost id)).length

theorem storeGet_storeSet_self (s : Store) (id : String) (v : Nat) (d : PluginData) :
    storeGet (storeSet s id v d) id = some (v, d) := by
  induction s with
  | nil => simp [storeGet, storeSet]
  | cons p rest ih =>
    obtain ⟨k, v0, d0⟩ := p
    simp only [storeSet]
    by_cases h : k = id
    · subst h; simp [storeGet]
    · have hb : (k == id) = false := beq_eq_false_iff_ne.mpr h
      simp [storeGet, hb, ih]

theorem handleEvent_put_pending_new (postHandle : String → String)
    (s : Store) (id user : String) (hnone : storeGet s id = none) :
    handleEvent postHandle s (putEvent id user)
      = (storeSet s id 1 ⟨postHandle id, false⟩, [Effect.post id]) := by
  simp [handleEvent, putEvent, hnone]

theorem handleEvent_put_pending_seen (postHandle : String → String)
    (s : Store) (id user : String) (x : Nat × PluginData)
    (hseen : storeGet s id = some x) :
    handleEvent postHandle s (putEvent id user) = (s, []) := by
  simp [handleEvent, putEvent, hseen]

theorem processEvents_pending_put_seen (postHandle : String → String)
    (s : Store) (id user : String) (n : Nat) (x : Nat × PluginData)
    (hseen : storeGet s id = some x) :
    processEvents postHandle s (List.replicate n (putEvent id user)) = (s, []) := by
  induction n with
  | zero => simp [processEvents]
  | succ m ih =>
    rw [List.replicate_succ]
    simp only [processEvents, handleEvent_put_pending_seen postHandle s id user x hseen]
    simpa using ih

theorem postCount_replicate_put (postHandle : String → String)
    (id user : String) (n : Nat) :
    postCount (processEvents postHandle [] (List.replicate n (putEvent id user))).2 id
      = if n = 0 then 0 else 1 := by
  cases n with
  | zero => simp [processEvents, postCount]
  | succ m =>
    rw [List.replicate_succ]
    simp only [processEvents,
      handleEvent_put_pending_new postHandle [] id user rfl]
    rw [processEvents_pending_put_seen postHandle _ id user m _
      (storeGet_storeSet_self ([] : Store) id 1 ⟨postHandle id, false⟩)]
    simp [postCount, isPost]

theorem runLoop_allOk_length (conf : Config) (evs : List Event) :
    (runLoop conf (fun _ _ => true) evs).1.length
      = (evs.filter (fun ev => ev.type == Op.put)).length := by
  induction evs with
  | nil => simp [runLoop]
  | cons ev rest ih =>
    cases hty : ev.type with
    | init => simpa [runLoop, hty, List.filter] using ih
    | put => simpa [runLoop, hty, List.filter] using ih
    | delete => simpa [runLoop, hty, List.filter] using ih

/-- A verified callback action: approve or deny. -/
inductive Action where
  | approve
  | deny
  deriving DecidableEq, Repr

/-- The terminal state a callback action proposes. -/
def actionState : Action → State
  | Action.approve => State.approved
  | Action.deny => State.denied

/-- Modelled from the spec: the upstream authority's `SetState` contract —
a terminal state permits no further transitions (glossary), so a proposed
approve or deny is confirmed only while the request is still pending, and
rejected otherwise (the callback path applies a transition only after the
authority confirms it, section 4.3). -/
def setState (cur : State) (a : Action) : Option State :=
  match cur with
  | State.pending => some (actionState a)
  | _ => none

/-- Modelled from the spec: an arbitrary interleaving of terminal-transition
attempts against the authority for one request (watcher-driven and
webhook-driven actors, in the order the authority serializes them).
Returns the final upstream state and the number of confirmed transitions. -/
def applyAttempts (cur : State) : List Action → State × Nat
  | [] => (cur, 0)
  | a :: rest =>
    match setState cur a with
    | some s2 =>
      let r := applyAttempts s2 rest
      (r.1, r.2 + 1)
    | none => applyAttempts cur rest

theorem actionState_ne_pending (a : Action) : actionState a ≠ State.pending := by
  cases a <;> simp [actionState]

theorem applyAttempts_nonpending (cur : State) (l : List Action)
    (h : cur ≠ State.pending) : (applyAttempts cur l).2 = 0 := by
  induction l with
  | nil => rfl
  | cons a rest ih =>
    have hs : setState cur a = none := by
      cases cur with
      | pending => exact absurd rfl h
      | approved => rfl
      | denied => rfl
      | expired => rfl
    simp [applyAttempts, hs, ih]

/-- C1 (counterexample): in the example plugin, two Put events for the same
request id "r1" with unchanged Pending state make the loop invoke
`SetRequestState` twice, not exactly once — the duplicate Put is not a
no-op there. -/
theorem duplicate_put_reinvokes_setstate :
    ((runLoop ⟨["alice"]⟩ (fun _ _ => true)
        [putEvent "r1" "alice", putEvent "r1" "alice"]).1.length = 2)
    ∧ (2 : Nat) ≠ 1 := by
  constructor
  · rfl
  · decide

/-- C1 (amended): for every sequence of n Put events for the same request
id with unchanged Pending state, the spec-modelled reconciler core invokes
the Notification Channel's Post exactly once (zero times when n = 0): the
first Put posts and creates PluginData, every later duplicate finds the
record and is a no-op.  The example plugin, by contrast, invokes
`SetRequestState` once per delivered Put, duplicates included. -/
theorem put_notification_idempotence (postHandle : String → String)
    (conf : Config) (id user : String) (n : Nat) :
    postCount (processEvents postHandle []
        (List.replicate n (putEvent id user))).2 id = (if n = 0 then 0 else 1)
    ∧ (runLoop conf (fun _ _ => true)
        (List.replicate n (putEvent id user))).1.length = n := by
  refine ⟨postCount_replicate_put postHandle id user n, ?_⟩
  rw [runLoop_allOk_length]
  have hall : (List.replicate n (putEvent id user)).filter
      (fun ev => ev.type == Op.put) = List.replicate n (putEvent id user) := by
    apply List.filter_eq_self.mpr
    intro a ha
    rw [List.eq_of_mem_replicate ha]
    rfl
  rw [hall, List.length_replicate]

/-- C2: for any request, whatever sequence of terminal-transition attempts
reaches the upstream authority (duplicate events, racing webhook callbacks,
multiple replicas), at most one Approved or Denied transition is ever
confirmed: the first confirmed attempt moves the request out of Pending
and every later attempt is rejected. -/
theorem terminal_transition_at_most_once (cur : State) (l : List Action) :
    (applyAttempts cur l).2 ≤ 1 := by
  induction l generalizing cur with
  | nil => simp [applyAttempts]
  | cons a rest ih =>
    cases cur with
    | pending =>
      have : (applyAttempts (actionState a) rest).2 = 0 :=
        applyAttempts_nonpending _ _ (actionState_ne_pending a)
      simp [applyAttempts, setState, this]
    | approved => simpa [applyAttempts, setState] using ih State.approved
    | denied => simpa [applyAttempts, setState] using ih State.denied
    | expired => simpa [applyAttempts, setState] using ih State.expired

/-- C5 (counterexample): in the example plugin, a `SetRequestState` failure
on request "r1" terminates the loop with the wrapped error; the following
event for request "r2" is never handled, although handling it alone would
have produced a call. -/
theorem setstate_failure_stops_loop :
    (runLoop ⟨["alice"]⟩ (fun id _ => id != "r1")
        [putEvent "r1" "alice", putEvent "r2" "alice"]
      = ([⟨"r1", State.approved⟩], RunOutcome.setStateErr "r1" State.approved))
    ∧ (runLoop ⟨["alice"]⟩ (fun id _ => id != "r1") [putEvent "r2" "alice"]
      = ([⟨"r2", State.approved⟩], RunOutcome.watcherDone)) := by
  constructor
  · rfl
  · rfl

/-- C5 (amended): in the example plugin, an error from `SetRequestState`
while handling a Put event is fatal: `run` returns the wrapped error
immediately and no subsequent event — for this or any other request — is
processed. -/
theorem setstate_failure_fatal (conf : Config) (setOk : String → State → Bool)
    (req : Request) (rest : List Event)
    (hfail : setOk req.id (putState conf req) = false) :
    runLoop conf setOk (Event.mk Op.put req :: rest)
      = ([⟨req.id, putState conf req⟩],
          RunOutcome.setStateErr req.id (putState conf req)) := by
  simp [runLoop, hfail]

/-- Witness for the amended C5 theorem at a concrete input. -/
theorem setstate_failure_fatal_witness :
    ((fun (_ : String) (_ : State) => false) "r1"
        (putState ⟨[]⟩ ⟨"r1", "bob", State.pending⟩) = false)
    ∧ runLoop ⟨[]⟩ (fun _ _ => false)
        [Event.mk Op.put ⟨"r1", "bob", State.pending⟩, putEvent "r2" "bob"]
      = ([⟨"r1", putState ⟨[]⟩ ⟨"r1", "bob", State.pending⟩⟩],
          RunOutcome.setStateErr "r1" (putState ⟨[]⟩ ⟨"r1", "bob", State.pending⟩)) :=
  ⟨rfl, setstate_failure_fatal ⟨[]⟩ (fun _ _ => false)
    ⟨"r1", "bob", State.pending⟩ [putEvent "r2" "bob"] rfl⟩

/-- C6: a Delete event for a request id never seen via Put is a no-op that
does not fail: the example plugin only logs and continues the loop
unchanged, and the spec-modelled reconciler core, finding no PluginData for
the id, leaves the store unchanged and performs no notification call. -/
theorem delete_unseen_noop (conf : Config) (setOk : String → State → Bool)
    (id : String) (rest : List Event) (postHandle : String → String) (s : Store)
    (habsent : storeGet s id = none) :
    runLoop conf setOk (deleteEvent id :: rest) = runLoop conf setOk rest
    ∧ handleEvent postHandle s (deleteEvent id) = (s, []) := by
  constructor
  · rfl
  · simp [handleEvent, deleteEvent, habsent]

/-- Witness for the C6 theorem at a concrete input. -/
theorem delete_unseen_noop_witness :
    (storeGet [] "r9" = none)
    ∧ (runLoop ⟨[]⟩ (fun _ _ => true) [deleteEvent "r9"]
        = runLoop ⟨[]⟩ (fun _ _ => true) []
      ∧ handleEvent (fun _ => "handle1") [] (deleteEvent "r9") = ([], [])) :=
  ⟨rfl, delete_unseen_noop ⟨[]⟩ (fun _ _ => true) "r9" [] (fun _ => "handle1") [] rfl⟩

/-- C10: for every Put event the example plugin handles, the state passed
to `SetRequestState` is Approved exactly when the requesting user is in the
configured whitelist and Denied otherwise — no third outcome exists — and
the call made first by the loop for that event carries that state. -/
theorem put_whitelist_decision (conf : Config) (setOk : String → State → Bool)
    (req : Request) (rest : List Event) :
    (putState conf req = State.approved ↔ req.user ∈ conf.whitelist)
    ∧ (putState conf req = State.approved ∨ putState conf req = State.denied)
    ∧ (runLoop conf setOk (Event.mk Op.put req :: rest)).1.head?
        = some ⟨req.id, putState conf req⟩ := by
  refine ⟨?_, ?_, runLoop_put_cons conf setOk req rest⟩
  · have hiff := checkWhitelist_iff conf.whitelist req.user
    cases hc : checkWhitelist conf.whitelist req.user
    · rw [hc] at hiff
      have hval : putState conf req = State.denied := by
        unfold putState; rw [hc]; rfl
      rw [hval]
      constructor
      · intro h; exact absurd h (by decide)
      · intro hmem; exact absurd (hiff.mpr hmem) (by decide)
    · rw [hc] at hiff
      have hval : putState conf req = State.approved := by
        unfold putState; rw [hc]; rfl
      rw [hval]
      exact iff_of_true rfl (hiff.mp rfl)
  · unfold putState
    by_cases hc : checkWhitelist conf.whitelist req.user = true
    · left; simp [hc]
    · right; simp [hc]

/-- The signature-related headers an inbound webhook request may carry
(for Slack: X-Slack-Request-Timestamp and X-Slack-Signature). -/
structure Headers where
  timestamp : Option String
  signature : Option String
  deriving DecidableEq, Repr

/-- The decoded JIRA webhook payload (`Webhook` in webhook_server.go):
event names and the optional issue reference. -/
structure Webhook where
  webhookEvent : String
  issueEventTypeName : String
  issueID : Option String
  deriving DecidableEq, Repr

/-- Classification of an error returned by `onWebhook`, as tested by
`utils.IsCanceled` and `utils.IsDeadline` in `processWebhook`. -/
inductive ProcErr where
  | canceled
  | deadline
  | other
  deriving DecidableEq, Repr

/-- The JIRA webhook handler `processWebhook` of webhook_server.go.
`hdr` holds the request's signature headers — the handler never reads
them.  `readBody` is the result of reading the request body (`none` for a
read failure), `unmarshal` stands for `json.Unmarshal` into `Webhook`, and
`onWebhook` is the processing callback, returning `none` on success or a
classified error.  Every branch writes exactly one status: 500 on a body
read failure, 400 on a parse failure, 503 when processing fails with a
canceled or deadline-exceeded error, 500 on any other processing error,
and 200 on success. -/
def processWebhook (hdr : Headers) (readBody : Option String)
    (unmarshal : String → Option Webhook)
    (onWebhook : Webhook → Option ProcErr) : Nat :=
  match readBody with
  | none => 500
  | some body =>
    match unmarshal body with
    | none => 400
    | some wh =>
      match onWebhook wh with
      | none => 200
      | some ProcErr.canceled => 503
      | some ProcErr.deadline => 503
      | some ProcErr.other => 500

/-- The fixed timeout `processWebhook` derives its context with:
`context.WithTimeout(r.Context(), time.Millisecond*2500)`. -/
def webhookTimeoutMillis : Nat := 2500

/-- The deadline (in milliseconds of remaining budget) effectively applied
to a webhook-triggered call: the derived context expires no later than
both its parent and the fixed 2500 ms timeout. -/
def derivedDeadline (parentRemainingMillis : Option Nat) : Nat :=
  match parentRemainingMillis with
  | none => webhookTimeoutMillis
  | some p => min p webhookTimeoutMillis

/-- Modelled from the spec: the Slack webhook verifier (its source is not
available; section 4.4 and the test postCallback fix the format) —
recompute a keyed MAC with the shared secret over the canonical string
"v0:" ++ timestamp ++ ":" ++ body, compare it with the signature header,
and reject any timestamp farther from the current time than the
anti-replay window (in seconds). -/
def verifySlack (mac : String → String → String) (secret : String)
    (window : Int) (timestamp : Int) (body : String) (sig : String)
    (now : Int) : Bool :=
  decide ((now - timestamp).natAbs ≤ window.natAbs)
    && (sig == mac secret ("v0:" ++ toString timestamp ++ ":" ++ body))

/-- Modelled from the spec: the Slack callback endpoint's response status —
401 whenever verification fails, and otherwise the status produced by the
accepted callback's processing (section 6). -/
def slackCallbackStatus (mac : String → String → String) (secret : String)
    (window : Int) (timestamp : Int) (body : String) (sig : String)
    (now : Int) (innerStatus : Nat) : Nat :=
  if verifySlack mac secret window timestamp body sig now then innerStatus
  else 401

/-- C3 (counterexample): the JIRA webhook handler accepts, with status 200,
a request whose body was tampered with and whose signature header matches
nothing — it performs no signature verification at all, instead of the
claimed 401 rejection. -/
theorem jira_webhook_accepts_unverified :
    processWebhook ⟨some "12345", some "v0=mismatch"⟩ (some "tampered-body")
      (fun _ => some ⟨"jira:issue_updated", "issue_generic", some "10002"⟩)
      (fun _ => none) = 200
    ∧ (200 : Nat) ≠ 401 := by
  exact ⟨rfl, by decide⟩

/-- C3 (amended): the JIRA webhook server performs no signature
verification — its response is independent of the signature headers —
while the Slack webhook verifier (modelled from the spec) rejects with 401
both a tampered body carrying the valid signature of the original body
(whenever the keyed MAC separates the two canonical strings) and any
request whose timestamp lies outside the anti-replay window. -/
theorem webhook_signature_verification
    (mac : String → String → String) (secret : String) (window : Int)
    (t1 now1 t2 now2 : Int) (origBody body sig2 : String) (inner : Nat)
    (h1 h2 : Headers) (rb : Option String)
    (um : String → Option Webhook) (ow : Webhook → Option ProcErr)
    (hne : mac secret ("v0:" ++ toString t1 ++ ":" ++ body)
         ≠ mac secret ("v0:" ++ toString t1 ++ ":" ++ origBody))
    (hstale : window.natAbs < (now2 - t2).natAbs) :
    processWebhook h1 rb um ow = processWebhook h2 rb um ow
    ∧ slackCallbackStatus mac secret window t1 body
        (mac secret ("v0:" ++ toString t1 ++ ":" ++ origBody)) now1 inner = 401
    ∧ slackCallbackStatus mac secret window t2 origBody sig2 now2 inner = 401 := by
  refine ⟨rfl, ?_, ?_⟩
  · have hb : ((mac secret ("v0:" ++ toString t1 ++ ":" ++ origBody))
        == mac secret ("v0:" ++ toString t1 ++ ":" ++ body)) = false :=
      beq_eq_false_iff_ne.mpr (Ne.symm hne)
    simp [slackCallbackStatus, verifySlack, hb]
  · have hd : ¬ ((now2 - t2).natAbs ≤ window.natAbs) := Nat.not_le.mpr hstale
    simp [slackCallbackStatus, verifySlack, hd]

/-- Witness for the amended C3 theorem at a concrete input. -/
theorem webhook_signature_verification_witness :
    ((fun (s m : String) => s ++ "|" ++ m) "sec"
        ("v0:" ++ toString (0 : Int) ++ ":" ++ "b")
      ≠ (fun (s m : String) => s ++ "|" ++ m) "sec"
        ("v0:" ++ toString (0 : Int) ++ ":" ++ "a"))
    ∧ ((300 : Int).natAbs < ((0 : Int) - (-601 : Int)).natAbs)
    ∧ (processWebhook ⟨none, none⟩ (some "x") (fun _ => none) (fun _ => none)
        = processWebhook ⟨some "1", some "s1"⟩ (some "x") (fun _ => none)
            (fun _ => none)
      ∧ slackCallbackStatus (fun s m => s ++ "|" ++ m) "sec" 300 0 "b"
          ((fun (s m : String) => s ++ "|" ++ m) "sec"
            ("v0:" ++ toString (0 : Int) ++ ":" ++ "a")) 0 200 = 401
      ∧ slackCallbackStatus (fun s m => s ++ "|" ++ m) "sec" 300 (-601) "a"
          "x" 0 200 = 401) :=
  ⟨by decide, by decide,
    webhook_signature_verification (fun s m => s ++ "|" ++ m) "sec" 300
      0 0 (-601) 0 "a" "b" "x" 200 ⟨none, none⟩ ⟨some "1", some "s1"⟩
      (some "x") (fun _ => none) (fun _ => none) (by decide) (by decide)⟩

/-- A concrete stand-in for `json.Unmarshal` used by witnesses: only the
body "good" decodes. -/
def umEx : String → Option Webhook :=
  fun b => if b == "good" then some ⟨"e", "t", none⟩ else none

/-- C7: a webhook body that does not decode into a payload is answered
with the client-error status 400, distinct from the 500 used for
unexpected processing failures. -/
theorem malformed_payload_client_error (hdr : Headers) (body body2 : String)
    (unmarshal : String → Option Webhook) (wh : Webhook)
    (onWebhook : Webhook → Option ProcErr)
    (hbad : unmarshal body = none) (hok : unmarshal body2 = some wh) :
    processWebhook hdr (some body) unmarshal onWebhook = 400
    ∧ processWebhook hdr (some body2) unmarshal (fun _ => some ProcErr.other) = 500
    ∧ (400 : Nat) ≠ 500 := by
  refine ⟨?_, ?_, by decide⟩
  · simp [processWebhook, hbad]
  · simp [processWebhook, hok]

/-- Witness for the C7 theorem at a concrete input. -/
theorem malformed_payload_client_error_witness :
    (umEx "bad" = none)
    ∧ (umEx "good" = some ⟨"e", "t", none⟩)
    ∧ (processWebhook ⟨none, none⟩ (some "bad") umEx (fun _ => none) = 400
      ∧ processWebhook ⟨none, none⟩ (some "good") umEx
          (fun _ => some ProcErr.other) = 500
      ∧ (400 : Nat) ≠ 500) :=
  ⟨rfl, rfl, malformed_payload_client_error ⟨none, none⟩ "bad" "good" umEx
    ⟨"e", "t", none⟩ (fun _ => none) rfl rfl⟩

/-- C8: the JIRA webhook handler always answers with exactly one
definitive status drawn from 200, 400, 500, 503; when the body decodes,
success maps to 200, a canceled or deadline-exceeded processing failure to
503, and any other processing failure to 500. -/
theorem webhook_definitive_status (hdr : Headers) (rb : Option String)
    (unmarshal : String → Option Webhook) (onWebhook : Webhook → Option ProcErr)
    (body : String) (wh : Webhook)
    (hparse : unmarshal body = some wh) :
    (processWebhook hdr rb unmarshal onWebhook = 200
      ∨ processWebhook hdr rb unmarshal onWebhook = 400
      ∨ processWebhook hdr rb unmarshal onWebhook = 500
      ∨ processWebhook hdr rb unmarshal onWebhook = 503)
    ∧ (onWebhook wh = none →
        processWebhook hdr (some body) unmarshal onWebhook = 200)
    ∧ (onWebhook wh = some ProcErr.canceled →
        processWebhook hdr (some body) unmarshal onWebhook = 503)
    ∧ (onWebhook wh = some ProcErr.deadline →
        processWebhook hdr (some body) unmarshal onWebhook = 503)
    ∧ (onWebhook wh = some ProcErr.other →
        processWebhook hdr (some body) unmarshal onWebhook = 500) := by
  constructor
  · cases rb with
    | none => simp [processWebhook]
    | some b =>
      cases hu : unmarshal b with
      | none => simp [processWebhook, hu]
      | some w =>
        cases ho : onWebhook w with
        | none => simp [processWebhook, hu, ho]
        | some e => cases e <;> simp [processWebhook, hu, ho]
  · refine ⟨?_, ?_, ?_, ?_⟩ <;> intro h <;> simp [processWebhook, hparse, h]

/-- Witness for the C8 theorem at a concrete input. -/
theorem webhook_definitive_status_witness :
    (umEx "good" = some ⟨"e", "t", none⟩)
    ∧ ((processWebhook ⟨none, none⟩ (some "good") umEx (fun _ => none) = 200
        ∨ processWebhook ⟨none, none⟩ (some "good") umEx (fun _ => none) = 400
        ∨ processWebhook ⟨none, none⟩ (some "good") umEx (fun _ => none) = 500
        ∨ processWebhook ⟨none, none⟩ (some "good") umEx (fun _ => none) = 503)
      ∧ ((fun (_ : Webhook) => (none : Option ProcErr)) ⟨"e", "t", none⟩ = none →
          processWebhook ⟨none, none⟩ (some "good") umEx (fun _ => none) = 200)
      ∧ ((fun (_ : Webhook) => (none : Option ProcErr)) ⟨"e", "t", none⟩
            = some ProcErr.canceled →
          processWebhook ⟨none, none⟩ (some "good") umEx (fun _ => none) = 503)
      ∧ ((fun (_ : Webhook) => (none : Option ProcErr)) ⟨"e", "t", none⟩
            = some ProcErr.deadline →
          processWebhook ⟨none, none⟩ (some "good") umEx (fun _ => none) = 503)
      ∧ ((fun (_ : Webhook) => (none : Option ProcErr)) ⟨"e", "t", none⟩
            = some ProcErr.other →
          processWebhook ⟨none, none⟩ (some "good") umEx (fun _ => none) = 500)) :=
  ⟨rfl, webhook_definitive_status ⟨none, none⟩ (some "good") umEx
    (fun _ => none) "good" ⟨"e", "t", none⟩ rfl⟩

/-- C9: the webhook handler derives its context with the fixed timeout of
2500 milliseconds, strictly below five seconds, and the deadline
effectively applied to the processing call never exceeds it. -/
theorem webhook_timeout_bounded :
    webhookTimeoutMillis = 2500
    ∧ webhookTimeoutMillis < 5000
    ∧ ∀ parent, derivedDeadline parent ≤ webhookTimeoutMillis := by
  refine ⟨rfl, by decide, ?_⟩
  intro p
  cases p with
  | none => simp [derivedDeadline]
  | some q => simp [derivedDeadline]

/-- Modelled from the spec: the outcome of one connection attempt of the
Event Watcher (section 4.1, not in the available sources): authentication
rejected by the upstream source, a transient connection failure, or a
stream that opens, primes, delivers some events and then terminates. -/
inductive ConnResult where
  | authRejected
  | connFailed
  | streamEnded (events : List Event)

/-- The sentinel Init event: the request is empty. -/
def initEvent : Event := ⟨Op.init, ⟨"", "", State.pending⟩⟩

/-- The observable history of a watcher run: the events delivered to the
consumer, the backoff delays waited between reconnects, and whether the
run ended fatally with an authentication rejection. -/
structure WatcherRun where
  emitted : List Event
  delays : List Nat
  fatalAuth : Bool

/-- Modelled from the spec: the Event Watcher reconnect loop over a given
schedule of connection outcomes.  An authentication rejection stops the
watcher fatally; every other termination (failure to connect, stream end)
is retried after the current backoff delay, doubling it up to the
`maxBackoff` cap; each successfully primed stream re-issues Init before
its events. -/
def watcherLoop (maxBackoff : Nat) (backoff : Nat) :
    List ConnResult → WatcherRun
  | [] => ⟨[], [], false⟩
  | ConnResult.authRejected :: _ => ⟨[], [], true⟩
  | ConnResult.connFailed :: rest =>
    let r := watcherLoop maxBackoff (min (backoff * 2) maxBackoff) rest
    ⟨r.emitted, backoff :: r.delays, r.fatalAuth⟩
  | ConnResult.streamEnded evs :: rest =>
    let r := watcherLoop maxBackoff (min (backoff * 2) maxBackoff) rest
    ⟨(initEvent :: evs) ++ r.emitted, backoff :: r.delays, r.fatalAuth⟩

theorem watcher_delays_le (maxB : Nat) (attempts : List ConnResult) :
    ∀ b, ∀ d ∈ (watcherLoop maxB b attempts).delays, d ≤ max b maxB := by
  induction attempts with
  | nil => intro b d hd; simp [watcherLoop] at hd
  | cons a rest ih =>
    intro b d hd
    have step : ∀ hd2 : d ∈ b :: (watcherLoop maxB (min (b * 2) maxB) rest).delays,
        d ≤ max b maxB := by
      intro hd2
      rcases List.mem_cons.mp hd2 with rfl | hd3
      · exact le_max_left _ _
      · have hle := ih (min (b * 2) maxB) d hd3
        have h2 : max (min (b * 2) maxB) maxB = maxB :=
          max_eq_right (min_le_right _ _)
        rw [h2] at hle
        exact le_trans hle (le_max_right _ _)
    cases a with
    | authRejected => simp [watcherLoop] at hd
    | connFailed => exact step hd
    | streamEnded evs => exact step hd

theorem watcher_fatal_iff (maxB : Nat) (attempts : List ConnResult) :
    ∀ b, ((watcherLoop maxB b attempts).fatalAuth = true
      ↔ ConnResult.authRejected ∈ attempts) := by
  induction attempts with
  | nil => intro b; simp [watcherLoop]
  | cons a rest ih =>
    intro b
    cases a with
    | authRejected => simp [watcherLoop]
    | connFailed => simp [watcherLoop, ih]
    | streamEnded evs => simp [watcherLoop, ih]

/-- C4: over any schedule of connection outcomes, the watcher run ends
fatally exactly when the upstream source rejects authentication — every
other connection failure or stream termination is retried, with every
backoff delay bounded by the larger of the initial backoff and the cap —
and after each successfully primed stream the watcher re-issues Init
before that stream's events. -/
theorem watcher_reconnect_policy (maxB b0 : Nat) (attempts : List ConnResult)
    (evs : List Event) (rest : List ConnResult) :
    ((watcherLoop maxB b0 attempts).fatalAuth = true
      ↔ ConnResult.authRejected ∈ attempts)
    ∧ ((watcherLoop maxB b0 attempts).delays.all
        (fun d => d ≤ max b0 maxB) = true)
    ∧ (watcherLoop maxB b0 (ConnResult.streamEnded evs :: rest)).emitted
      = (initEvent :: evs)
        ++ (watcherLoop maxB (min (b0 * 2) maxB) rest).emitted := by
  refine ⟨watcher_fatal_iff maxB attempts b0, ?_, rfl⟩
  rw [List.all_eq_true]
  intro d hd
  simpa using watcher_delays_le maxB attempts b0 d hd

end TeleportPlugins
